import Mathlib

/-!
Verification development for `scripts/audit_feature.py`, a convention-compliance
auditor that scans one feature directory of a front-end codebase and emits a
Markdown report.  The Python source is shallowly embedded below: strings are
Lean `String`s, the regex scans of the source are translated into explicit
character-level scanners with the exact semantics of the patterns used
(`re.findall` with `re.MULTILINE`, `re.search`), and the imperative
accumulation of findings becomes ordered list concatenation.
-/

namespace Audit

/-- Whitespace characters as recognised by Python's `str.strip`, `str.isspace`
and the regex class `\s` on `str` patterns (ASCII part plus the Unicode
whitespace code points). -/
def isWs (c : Char) : Bool :=
  c == ' ' || c == '\t' || c == '\n' || c == '\r' || c == '\x0b' || c == '\x0c' ||
  c == '\x1c' || c == '\x1d' || c == '\x1e' || c == '\x1f' || c == '\x85' || c == '\xa0' ||
  c == '\u1680' || ('\u2000' ≤ c && c ≤ '\u200A') || c == '\u2028' || c == '\u2029' ||
  c == '\u202F' || c == '\u205F' || c == '\u3000'

/-- Line-break characters on which Python's `str.splitlines` splits
(`\r\n` is additionally treated as a single break). -/
def isLineBreak (c : Char) : Bool :=
  c == '\n' || c == '\r' || c == '\x0b' || c == '\x0c' ||
  c == '\x1c' || c == '\x1d' || c == '\x1e' || c == '\x85' ||
  c == '\u2028' || c == '\u2029'

/-- Worker for `pyLines`: accumulates the current line (reversed) and splits at
line breaks, treating `\r\n` as one break.  A trailing line break produces no
trailing empty line, exactly as `str.splitlines` does. -/
def splitlinesAux (acc : List Char) : List Char → List (List Char)
  | [] => if acc.isEmpty then [] else [acc.reverse]
  | '\r' :: '\n' :: rest => acc.reverse :: splitlinesAux [] rest
  | c :: rest =>
    if isLineBreak c then acc.reverse :: splitlinesAux [] rest
    else splitlinesAux (c :: acc) rest

/-- Python `content.splitlines()`. -/
def pyLines (s : String) : List String :=
  (splitlinesAux [] s.data).map (fun l => (⟨l⟩ : String))

/-- ASCII lower-casing of one character (`str.lower` on the identifiers and
markers the auditor compares is ASCII-only). -/
def lowerChar (c : Char) : Char :=
  if 'A' ≤ c && c ≤ 'Z' then Char.ofNat (c.toNat + 32) else c

/-- ASCII upper-casing of one character. -/
def upperChar (c : Char) : Char :=
  if 'a' ≤ c && c ≤ 'z' then Char.ofNat (c.toNat - 32) else c

/-- Python `s.lower()`. -/
def pyLower (s : String) : String := ⟨s.data.map lowerChar⟩

/-- Python `s.strip()`: remove leading and trailing whitespace. -/
def pyStrip (s : String) : String :=
  ⟨((s.data.dropWhile isWs).reverse.dropWhile isWs).reverse⟩

/-- Decide whether the first list is a prefix of the second. -/
def isPrefixOfC : List Char → List Char → Bool
  | [], _ => true
  | _ :: _, [] => false
  | a :: as, b :: bs => a == b && isPrefixOfC as bs

/-- Decide whether `needle` occurs as a contiguous substring of `hay`
(Python's `needle in hay`). -/
def containsSub (needle : List Char) : List Char → Bool
  | [] => needle.isEmpty
  | c :: rest => isPrefixOfC needle (c :: rest) || containsSub needle rest

/-- Python `needle in hay` on `String`s. -/
def strContains (hay needle : String) : Bool := containsSub needle.data hay.data

/-- Python `s.startswith(pre)`. -/
def strStartsWith (s pre : String) : Bool := isPrefixOfC pre.data s.data

/-- Python `s.endswith(suf)`. -/
def strEndsWith (s suf : String) : Bool := isPrefixOfC suf.data.reverse s.data.reverse

/-- Worker for `pySplitOn`: split at each non-overlapping occurrence of the
(non-empty) separator `s0 :: stail`, scanning left to right.  The scan steps
one character at a time (keeping the recursion structural): after the
separator is recognised, its head is stepped over and `skip` counts its
remaining characters, which must not be accumulated into the current piece. -/
def splitOnSubAux (s0 : Char) (stail : List Char) :
    Nat → List Char → List Char → List (List Char)
  | _, acc, [] => [acc.reverse]
  | skip+1, acc, _ :: rest => splitOnSubAux s0 stail skip acc rest
  | 0, acc, c :: rest =>
    if isPrefixOfC (s0 :: stail) (c :: rest) then
      acc.reverse :: splitOnSubAux s0 stail stail.length [] rest
    else
      splitOnSubAux s0 stail 0 (c :: acc) rest

/-- Python `s.split(sep)` for a non-empty separator (the only way the audited
script calls it; Python raises on an empty separator). -/
def pySplitOn (s sep : String) : List String :=
  match sep.data with
  | [] => [s]
  | c :: cs => (splitOnSubAux c cs 0 [] s.data).map (fun l => (⟨l⟩ : String))

/-- Python `os.path.dirname` for POSIX paths, as used on the relative paths of the
scanned files: the text before the final `/`, with trailing slashes stripped
unless the result is all slashes. -/
def pyDirname (p : String) : String :=
  let revd := p.data.reverse
  let base := revd.takeWhile (fun c => c != '/')
  let headRev := revd.drop base.length
  if headRev.isEmpty then ""
  else if headRev.all (fun c => c == '/') then ⟨headRev.reverse⟩
  else ⟨(headRev.dropWhile (fun c => c == '/')).reverse⟩

/-- Worker for `pyTitle`: the flag records whether the previous character was
alphabetic (cased). -/
def titleAux : Bool → List Char → List Char
  | _, [] => []
  | prevCased, c :: rest =>
    if ('a' ≤ c && c ≤ 'z') || ('A' ≤ c && c ≤ 'Z') then
      (if prevCased then lowerChar c else upperChar c) :: titleAux true rest
    else
      c :: titleAux false rest

/-- Python `s.title()` restricted to ASCII, as applied to the fixed
mandate-check keys. -/
def pyTitle (s : String) : String := ⟨titleAux false s.data⟩

/-! ### The snake-case property scan

`audit_variable_entity_registry` runs
`re.findall(r'^\s*([a-z]+_[a-z0-9_]*)\??\s*:', content, re.MULTILINE)`
over the full file content.  All quantifiers in that pattern are
backtracking-free (each starred class is disjoint from the character that must
follow it), so the scan below is an exact translation: at each position that
starts the string or follows a `'\n'` (the only line anchor `re.MULTILINE`
recognises), greedily skip whitespace, read `[a-z]+`, require `'_'`, read
`[a-z0-9_]*`, optionally consume `'?'`, skip whitespace, and require `':'`.
`re.findall` continues scanning right after each non-overlapping match. -/

/-- Lower-case ASCII letter, the class `[a-z]`. -/
def isLowerAZ (c : Char) : Bool := 'a' ≤ c && c ≤ 'z'

/-- The class `[a-z0-9_]`. -/
def isSnakeTail (c : Char) : Bool := isLowerAZ c || ('0' ≤ c && c ≤ '9') || c == '_'

/-- The part of the snake-property pattern after the captured group:
`\??\s*:`.  Consumes an optional `'?'`, then whitespace, then requires `':'`;
returns the input remaining after the colon.  (Neither quantifier can
backtrack: `'?'` is not whitespace and not `':'`.) -/
def finishSnake (l3 : List Char) : Option (List Char) :=
  let l4 := if l3.head? == some '?' then l3.tail else l3
  let l5 := l4.dropWhile isWs
  if l5.head? == some ':' then some l5.tail else none

/-- Attempt the (anchorless part of the) snake-property pattern
`\s*([a-z]+_[a-z0-9_]*)\??\s*:` at the head of `l`.  On success, return the
captured group and the input remaining after the match. -/
def matchSnakeAt (l : List Char) : Option (List Char × List Char) :=
  let l1 := l.dropWhile isWs
  let letters := l1.takeWhile isLowerAZ
  let l2 := l1.drop letters.length
  if letters.isEmpty then none
  else if l2.head? == some '_' then
    let tail := l2.tail.takeWhile isSnakeTail
    match finishSnake (l2.tail.drop tail.length) with
    | some rest => some (letters ++ '_' :: tail, rest)
    | none => none
  else none

theorem length_dropWhile_le (p : Char → Bool) (l : List Char) :
    (l.dropWhile p).length ≤ l.length := by
  induction l with
  | nil => exact Nat.le_refl _
  | cons c rest ih =>
    simp only [List.dropWhile]
    split
    · exact Nat.le_trans ih (Nat.le_succ _)
    · exact Nat.le_refl _

theorem finishSnake_lt {l3 r : List Char} (h : finishSnake l3 = some r) :
    r.length < l3.length := by
  unfold finishSnake at h
  dsimp only at h
  set l4 : List Char := if l3.head? == some '?' then l3.tail else l3 with hl4
  have h4 : l4.length ≤ l3.length := by
    rw [hl4]; split
    · rw [List.length_tail]; omega
    · exact Nat.le_refl _
  set l5 := l4.dropWhile isWs with hl5
  have h5 : l5.length ≤ l4.length := length_dropWhile_le _ _
  split at h
  · next hcolon =>
    have hne : l5 ≠ [] := by
      intro hnil
      rw [hnil] at hcolon
      simp at hcolon
    have h6 : l5.tail.length = l5.length - 1 := List.length_tail _
    have h7 : 1 ≤ l5.length := by
      rcases l5 with _ | ⟨x, xs⟩
      · exact absurd rfl hne
      · simp
    injection h with h
    subst h
    rw [List.length_tail]
    omega
  · exact absurd h (by simp)

/-- A successful `matchSnakeAt` ends strictly inside the input, so the scan
below terminates. -/
theorem matchSnakeAt_lt {l g r : List Char}
    (h : matchSnakeAt l = some (g, r)) : r.length < l.length := by
  unfold matchSnakeAt at h
  dsimp only at h
  set l1 := l.dropWhile isWs with hl1
  have h1 : l1.length ≤ l.length := length_dropWhile_le _ _
  set letters := l1.takeWhile isLowerAZ with hlet
  set l2 := l1.drop letters.length with hl2
  have h2 : l2.length ≤ l1.length := by rw [hl2]; simp [List.length_drop]
  have h3 : l2.tail.length ≤ l2.length := by rw [List.length_tail]; omega
  have h4 : (l2.tail.drop (l2.tail.takeWhile isSnakeTail).length).length ≤
      l2.tail.length := by rw [List.length_drop]; omega
  split at h
  · exact absurd h (by simp)
  · split at h
    · split at h
      · next rest hfin =>
        have h5 : rest.length < (l2.tail.drop
            (l2.tail.takeWhile isSnakeTail).length).length := finishSnake_lt hfin
        injection h with h
        have : r = rest := congrArg Prod.snd h.symm
        subst this
        omega
      · exact absurd h (by simp)
    · exact absurd h (by simp)

/-- The full multiline `re.findall` scan for snake-case properties: attempt a
match at the start of the input and immediately after every `'\n'` (the only
positions `^` matches under `re.MULTILINE`), collect each captured group, and
resume scanning right after each non-overlapping match.

The scan advances one character per recursive step (keeping the recursion
structural); `skip` counts positions still covered by the previous match, at
which no new match may start.  After a match consuming `n` characters
(`n ≥ 1`, by `matchSnakeAt_lt`), the head character is stepped over and the
remaining `n - 1` are skipped, which lands exactly at the end of the match,
where `re.findall` resumes. -/
def snakeScan : Nat → Bool → List Char → List (List Char)
  | _, _, [] => []
  | skip+1, _, c :: rest => snakeScan skip (c == '\n') rest
  | 0, bol, c :: rest =>
    if bol then
      match matchSnakeAt (c :: rest) with
      | some (g, rest') => g :: snakeScan ((c :: rest).length - rest'.length - 1) false rest
      | none => snakeScan 0 (c == '\n') rest
    else snakeScan 0 (c == '\n') rest

/-- The scan `re.findall(r'^\s*([a-z]+_[a-z0-9_]*)\??\s*:', content, re.MULTILINE)`:
the list of snake-case property names found in `content`. -/
def findSnake (content : String) : List String :=
  (snakeScan 0 true content.data).map (fun g => (⟨g⟩ : String))

/-! ### The entity scan

`audit_variable_entity_registry` also runs
`re.findall(r'(export )?(interface|type|class) ([A-Za-z0-9]+)', content)`.
The three keyword alternatives start with distinct letters, and the name class
`[A-Za-z0-9]+` is greedy with nothing needing backtracking after it, so the
scan is again deterministic.  If `"export "` matches but the rest of the
pattern fails, the regex retries at the same position without the optional
group (which necessarily fails, since the position then starts with `'e'`). -/

/-- ASCII alphanumeric, the class `[A-Za-z0-9]`. -/
def isAlnum (c : Char) : Bool :=
  isLowerAZ c || ('A' ≤ c && c ≤ 'Z') || ('0' ≤ c && c ≤ '9')

/-- Match `(interface|type|class)` at the head of `l`, returning the matched
keyword and the rest. -/
def matchKindAt (l : List Char) : Option (String × List Char) :=
  if isPrefixOfC "interface".data l then some ("interface", l.drop 9)
  else if isPrefixOfC "type".data l then some ("type", l.drop 4)
  else if isPrefixOfC "class".data l then some ("class", l.drop 5)
  else none

/-- Match `(interface|type|class) ([A-Za-z0-9]+)` at the head of `l`. -/
def matchEntityCore (l : List Char) : Option ((String × String) × List Char) :=
  match matchKindAt l with
  | none => none
  | some (kind, l1) =>
    if l1.head? == some ' ' then
      let nm := l1.tail.takeWhile isAlnum
      if nm.isEmpty then none
      else some ((kind, (⟨nm⟩ : String)), l1.tail.drop nm.length)
    else none

/-- Match the full entity pattern (with the optional `export ` qualifier) at
the head of `l`. -/
def matchEntityAt (l : List Char) : Option ((String × String) × List Char) :=
  if isPrefixOfC "export ".data l then
    match matchEntityCore (l.drop 7) with
    | some r => some r
    | none => matchEntityCore l
  else matchEntityCore l

theorem isPrefixOfC_length_le :
    ∀ {p l : List Char}, isPrefixOfC p l = true → p.length ≤ l.length
  | [], _, _ => Nat.zero_le _
  | _ :: _, [], h => by simp [isPrefixOfC] at h
  | a :: as, b :: bs, h => by
    simp only [isPrefixOfC, Bool.and_eq_true] at h
    have := @isPrefixOfC_length_le as bs h.2
    simp only [List.length_cons]
    omega

theorem matchKindAt_lt {l : List Char} {k : String} {r : List Char}
    (h : matchKindAt l = some (k, r)) : r.length < l.length := by
  unfold matchKindAt at h
  split at h
  · next hp =>
    have h9 : ("interface".data).length ≤ l.length := isPrefixOfC_length_le hp
    have h10 : ("interface".data).length = 9 := rfl
    injection h with h
    injection h with hk hr
    subst hr
    simp only [List.length_drop]
    omega
  · split at h
    · next hp =>
      have h9 : ("type".data).length ≤ l.length := isPrefixOfC_length_le hp
      have h10 : ("type".data).length = 4 := rfl
      injection h with h
      injection h with hk hr
      subst hr
      simp only [List.length_drop]
      omega
    · split at h
      · next hp =>
        have h9 : ("class".data).length ≤ l.length := isPrefixOfC_length_le hp
        have h10 : ("class".data).length = 5 := rfl
        injection h with h
        injection h with hk hr
        subst hr
        simp only [List.length_drop]
        omega
      · exact absurd h (by simp)

theorem matchEntityCore_lt {l : List Char} {e : String × String} {r : List Char}
    (h : matchEntityCore l = some (e, r)) : r.length < l.length := by
  unfold matchEntityCore at h
  split at h
  · exact absurd h (by simp)
  · next kind l1 hkind =>
    have h1 : l1.length < l.length := matchKindAt_lt hkind
    dsimp only at h
    split at h
    · split at h
      · exact absurd h (by simp)
      · injection h with h
        injection h with he hr
        subst hr
        have h2 : l1.tail.length ≤ l1.length := by
          rw [List.length_tail]; omega
        simp only [List.length_drop]
        omega
    · exact absurd h (by simp)

theorem matchEntityAt_lt {l : List Char} {e : String × String} {r : List Char}
    (h : matchEntityAt l = some (e, r)) : r.length < l.length := by
  unfold matchEntityAt at h
  split at h
  · split at h
    · next hsome =>
      injection h with h
      subst h
      have := matchEntityCore_lt hsome
      simp only [List.length_drop] at this
      omega
    · exact matchEntityCore_lt h
  · exact matchEntityCore_lt h

/-- The `re.findall` scan for entity declarations: try the pattern at every
position, left to right, resuming after each non-overlapping match (the same
one-character-per-step scheme as `snakeScan`; a match consumes at least one
character by `matchEntityAt_lt`). -/
def entityScanAux : Nat → List Char → List (String × String)
  | _, [] => []
  | skip+1, _ :: rest => entityScanAux skip rest
  | 0, c :: rest =>
    match matchEntityAt (c :: rest) with
    | some (e, rest') => e :: entityScanAux ((c :: rest).length - rest'.length - 1) rest
    | none => entityScanAux 0 rest

/-- The scan `re.findall(r'(export )?(interface|type|class) ([A-Za-z0-9]+)', content)`:
the list of `(kind, name)` declaration matches in `content`. -/
def entityScan (l : List Char) : List (String × String) :=
  entityScanAux 0 l

/-! ### The import-path search

`audit_dependencies` runs `re.search(r'from [\'"]([^\'"]+)[\'"]', line)`:
find the leftmost position where the literal `from ` is followed by a quote,
one or more non-quote characters, and a quote (the two quote characters need
not agree, since both the opening and closing class is `['"]`). -/

/-- Is `c` one of the two quote characters? -/
def isQuote (c : Char) : Bool := c == '\'' || c == '"'

/-- Attempt `from ['"]([^'"]+)['"]` exactly at the head of `l`; return the
captured path on success. -/
def matchFromAt (l : List Char) : Option (List Char) :=
  match l with
  | 'f' :: 'r' :: 'o' :: 'm' :: ' ' :: q :: rest =>
    if isQuote q then
      let body := rest.takeWhile (fun c => !isQuote c)
      match rest.drop body.length with
      | c :: _ => if isQuote c && !body.isEmpty then some body else none
      | [] => none
    else none
  | _ => none

/-- Python `re.search` for the import-path pattern: try every position left to
right and return the first captured path, if any. -/
def searchFromPath (l : List Char) : Option (List Char) :=
  match l with
  | [] => none
  | _ :: rest =>
    match matchFromAt l with
    | some p => some p
    | none => searchFromPath rest

/-! ### Data model -/

/-- One scanned source file, as assembled by `FeatureAuditor.scan_files`:
the path relative to the project root, the bare file name, and the full text
content.  The line list and line count stored by the Python code are derived
(`content.splitlines()`), so they are recomputed by `fileLines` here rather
than stored. -/
structure SourceFile where
  relPath : String
  name : String
  content : String
deriving Repr, DecidableEq

/-- The stored `file["line_content"]`, i.e. `content.splitlines()`. -/
def fileLines (f : SourceFile) : List String := pyLines f.content

/-- A detected declaration, as collected into the entity inventory. -/
structure Entity where
  name : String
  kind : String
  file : String
deriving Repr, DecidableEq

/-- The `self.mandate_checks` dict (fixed keys, insertion order
`integer_cents`, `sync_integrity`, `soft_deletes`, `auth_abstraction`). -/
structure MandateChecks where
  integer_cents : String
  sync_integrity : String
  soft_deletes : String
  auth_abstraction : String
deriving Repr, DecidableEq

/-- The `self.performance_checks` dict. -/
structure PerformanceChecks where
  react_compiler : String
  re_render : String
deriving Repr, DecidableEq

/-- The `self.stats` dict. -/
structure Stats where
  entity_registry : String
  dependency_manifest : String
  sacred_mandate : String
  performance : String
  naming : String
  feature_bleed : List String
deriving Repr, DecidableEq

/-- Ordered concatenation of the per-element finding lists, mirroring a
Python `for` loop that appends findings file by file (or line by line). -/
def collect (g : α → List String) : List α → List String
  | [] => []
  | a :: rest => g a ++ collect g rest

/-- As `collect`, with a running index, mirroring `for i, line in
enumerate(lines)`. -/
def collectIdx (g : Nat → α → List String) : Nat → List α → List String
  | _, [] => []
  | i, a :: rest => g i a ++ collectIdx g (i+1) rest

/-! ### `audit_variable_entity_registry` -/

/-- The test `"domain" in file["rel_path"]`. -/
def isDomainFile (f : SourceFile) : Bool := strContains f.relPath "domain"

/-- The naming-violation message. -/
def snakeViolationMsg (prop rel : String) : String :=
  "Snake_case property '" ++ prop ++ "' in domain file " ++ rel

/-- Naming violations contributed by one file: the snake-property scan runs
only on files whose relative path contains `"domain"`. -/
def snakeViolationsOfFile (f : SourceFile) : List String :=
  if isDomainFile f then
    (findSnake f.content).map (fun prop => snakeViolationMsg prop f.relPath)
  else []

/-- All naming violations, in file order. -/
def namingViolations (files : List SourceFile) : List String :=
  collect snakeViolationsOfFile files

/-- Entities contributed by one file, in scan order. -/
def entitiesOfFile (f : SourceFile) : List Entity :=
  (entityScan f.content.data).map (fun kn => ⟨kn.2, kn.1, f.relPath⟩)

/-- The full entity inventory, in file order. -/
def entitiesOf : List SourceFile → List Entity
  | [] => []
  | f :: rest => entitiesOfFile f ++ entitiesOf rest

/-- The verdict `self.stats["naming"]`: initialised `"PASS"`, set to `"FAIL"` when any
naming violation was recorded. -/
def namingStat (files : List SourceFile) : String :=
  if (namingViolations files).isEmpty then "PASS" else "FAIL"

/-! ### `audit_dependencies` -/

/-- The guarded import-path extraction for one line:
`line.strip().startswith("import ")`, then
`re.search(r'from [\'"]([^\'"]+)[\'"]', line)`. -/
def importPath (line : String) : Option String :=
  if strStartsWith (pyStrip line) "import " then
    (searchFromPath line.data).map (fun p => (⟨p⟩ : String))
  else none

/-- The test `path_str.startswith("@/features/") or path_str.startswith("../../features/")`. -/
def isBleedPath (p : String) : Bool :=
  strStartsWith p "@/features/" || strStartsWith p "../../features/"

/-- The extraction `path_str.split("features/")[1].split("/")[0]` — the text between the
first two occurrences of `"features/"` (or to the end), truncated at its
first `/`.  The `[1]` index is only reached under the `isBleedPath` guard,
which guarantees the split has at least two parts. -/
def bleedTarget (p : String) : String :=
  ((pySplitOn ((pySplitOn p "features/").getD 1 "") "/").getD 0 "")

/-- The feature-bleed finding message (`i` is the 0-based enumeration index;
the message carries `i+1`). -/
def bleedMsg (target rel : String) (i : Nat) : String :=
  "Import from " ++ target ++ " in " ++ rel ++ ":" ++ toString (i+1)

/-- Feature-bleed findings contributed by one line. -/
def bleedOfLine (featureName rel : String) (i : Nat) (line : String) : List String :=
  match importPath line with
  | none => []
  | some p =>
    if isBleedPath p then
      if bleedTarget p != featureName && bleedTarget p != "shared" then
        [bleedMsg (bleedTarget p) rel i]
      else []
    else []

/-- Whether a line triggers the feature-bleed rule for `featureName`: its
stripped form starts with `import `, a quoted `from` path is found, the path
has a cross-feature prefix, and the extracted target is neither the feature
itself nor `shared`. -/
def qualifiesBleed (featureName : String) (line : String) : Bool :=
  match importPath line with
  | none => false
  | some p => isBleedPath p && bleedTarget p != featureName && bleedTarget p != "shared"

/-- The target-feature identifier the code extracts from a line's import path
(empty when no path is found). -/
def lineTarget (line : String) : String :=
  match importPath line with
  | none => ""
  | some p => bleedTarget p

/-- Transformer-usage notes contributed by one line. -/
def transformersOfLine (rel : String) (i : Nat) (line : String) : List String :=
  match importPath line with
  | none => []
  | some p =>
    if strContains p "types/data-transformers" || strContains p "data/data-transformers" then
      ["Uses data-transformers in " ++ rel ++ ":" ++ toString (i+1)]
    else []

/-- All feature-bleed findings, in file order then line order. -/
def featureBleedOf (featureName : String) (files : List SourceFile) : List String :=
  collect (fun f => collectIdx (bleedOfLine featureName f.relPath) 0 (fileLines f)) files

/-- All transformer-usage notes, in file order then line order. -/
def transformersOf (files : List SourceFile) : List String :=
  collect (fun f => collectIdx (transformersOfLine f.relPath) 0 (fileLines f)) files

/-- The verdict `self.stats["dependency_manifest"]`: initialised `"PASS"`, set to
`"FAIL"` when the feature-bleed list is non-empty. -/
def dependencyManifestStat (files : List SourceFile) (featureName : String) : String :=
  if (featureBleedOf featureName files).isEmpty then "PASS" else "FAIL"

/-! ### `audit_sacred_mandate` -/

/-- The integer-cents applicability test for one file: a case-insensitive
mention of `"balance"`, `"amount"` or `"price"`. -/
def isFinancial (f : SourceFile) : Bool :=
  strContains (pyLower f.content) "balance" ||
  strContains (pyLower f.content) "amount" ||
  strContains (pyLower f.content) "price"

/-- The float heuristic for one file: `"number" in content` (case-sensitive)
together with a case-insensitive mention of `"float"` or `"double"`.  In the
source this test is nested inside the financial-term branch, so it is only
ever evaluated on files that are themselves financial. -/
def floatFlag (f : SourceFile) : Bool :=
  strContains f.content "number" &&
  (strContains (pyLower f.content) "float" || strContains (pyLower f.content) "double")

/-- The `has_financial` flag after the integer-cents loop. -/
def hasFinancialOf (files : List SourceFile) : Bool := files.any isFinancial

/-- The float-usage findings, one per financial file that also trips the
float heuristic, in file order. -/
def floatViolationsOf (files : List SourceFile) : List String :=
  collect (fun f =>
    if isFinancial f && floatFlag f then ["Potential float usage in " ++ f.relPath]
    else []) files

/-- The verdict `self.mandate_checks["integer_cents"]`: stays `"N/A"` unless some file is
financial, then `"PASS"`/`"FAIL"` by the violation list. -/
def integerCentsVerdict (files : List SourceFile) : String :=
  if hasFinancialOf files then
    if (floatViolationsOf files).isEmpty then "PASS" else "FAIL"
  else "N/A"

/-- The soft-delete violation test for one file: mentions `"delete"`
(case-insensitively), lacks both `"deleted_at"` and `"deletedAt"`
(case-sensitively), and has `"repository"` in its relative path. -/
def softDeleteViolating (f : SourceFile) : Bool :=
  strContains (pyLower f.content) "delete" &&
  !strContains f.content "deleted_at" && !strContains f.content "deletedAt" &&
  strContains f.relPath "repository"

/-- The soft-delete findings, one per violating file, in file order. -/
def deleteViolationsOf (files : List SourceFile) : List String :=
  collect (fun f =>
    if softDeleteViolating f then
      ["Potential hard delete verification needed in " ++ f.relPath]
    else []) files

/-- The `has_delete` flag after the soft-delete loop.  The source sets it in
the same branch that appends a violation, so it is exactly "some violation
was recorded". -/
def hasDeleteOf (files : List SourceFile) : Bool :=
  !(deleteViolationsOf files).isEmpty

/-- The verdict `self.mandate_checks["soft_deletes"]`: stays `"N/A"` unless `has_delete`
was set, then `"PASS"` or `"WARNING"` by the violation list (the `"PASS"`
branch is unreachable, since `has_delete` is set only when a violation is
appended). -/
def softDeletesVerdict (files : List SourceFile) : String :=
  if hasDeleteOf files then
    if (deleteViolationsOf files).isEmpty then "PASS" else "WARNING"
  else "N/A"

/-- The auth-abstraction violation test for one file: contains the literal
`"supabase.auth."` while the audited feature is not itself `"auth"`. -/
def authViolating (featureName : String) (f : SourceFile) : Bool :=
  strContains f.content "supabase.auth." && featureName != "auth"

/-- The auth findings, one per violating file, in file order. -/
def authViolationsOf (featureName : String) (files : List SourceFile) : List String :=
  collect (fun f =>
    if authViolating featureName f then ["Direct supabase.auth usage in " ++ f.relPath]
    else []) files

/-- The verdict `self.mandate_checks["auth_abstraction"]`: explicitly set to `"FAIL"` or
`"PASS"` on every run (never left `"N/A"`). -/
def authAbstractionVerdict (files : List SourceFile) (featureName : String) : String :=
  if (authViolationsOf featureName files).isEmpty then "PASS" else "FAIL"

/-! ### `audit_performance` -/

/-- The watch-usage test for one file: contains `"watch("` without
`"useWatch"`, and references `"react-hook-form"`. -/
def watchViolating (f : SourceFile) : Bool :=
  strContains f.content "watch(" && !strContains f.content "useWatch" &&
  strContains f.content "react-hook-form"

/-- The watch findings, one per offending file, in file order. -/
def watchViolationsOf (files : List SourceFile) : List String :=
  collect (fun f =>
    if watchViolating f then
      ["Usage of watch() instead of useWatch in " ++ f.relPath]
    else []) files

/-- The verdict `self.performance_checks["react_compiler"]`: initialised `"PASS"`, set to
`"FAIL"` when any watch finding was recorded. -/
def reactCompilerVerdict (files : List SourceFile) : String :=
  if (watchViolationsOf files).isEmpty then "PASS" else "FAIL"

/-! ### Aggregation -/

/-- Everything `generate_markdown` has computed after calling the four audit
methods: the entity and transformer inventories, the verdict dictionaries, and
the flat findings list `self.issues` in execution order (naming, feature
bleed, float, soft delete, auth, watch). -/
structure AuditResult where
  entities : List Entity
  transformers : List String
  stats : Stats
  mandate : MandateChecks
  perf : PerformanceChecks
  issues : List String
deriving Repr, DecidableEq

/-- Run the four audit methods in the order `generate_markdown` calls them.
`stats.entity_registry`, `stats.sacred_mandate` and `stats.performance` keep
their initial `"PASS"`: no code path assigns them.  `mandate.sync_integrity`
keeps its initial `"N/A"`: no check writes it.  `perf.re_render` keeps its
initial `"PASS"`. -/
def runChecks (files : List SourceFile) (featureName : String) : AuditResult :=
  { entities := entitiesOf files
    transformers := transformersOf files
    stats :=
      { entity_registry := "PASS"
        dependency_manifest := dependencyManifestStat files featureName
        sacred_mandate := "PASS"
        performance := "PASS"
        naming := namingStat files
        feature_bleed := featureBleedOf featureName files }
    mandate :=
      { integer_cents := integerCentsVerdict files
        sync_integrity := "N/A"
        soft_deletes := softDeletesVerdict files
        auth_abstraction := authAbstractionVerdict files featureName }
    perf :=
      { react_compiler := reactCompilerVerdict files
        re_render := "PASS" }
    issues :=
      namingViolations files ++ featureBleedOf featureName files ++
      floatViolationsOf files ++ deleteViolationsOf files ++
      authViolationsOf featureName files ++ watchViolationsOf files }

/-! ### The Markdown renderer (`generate_markdown`) -/

/-- Insert a file under its folder key, preserving dict insertion order:
a new folder key goes to the end, an existing key has the file appended. -/
def groupInsert (folder : String) (f : SourceFile) :
    List (String × List SourceFile) → List (String × List SourceFile)
  | [] => [(folder, [f])]
  | (k, fs) :: rest =>
    if k == folder then (k, fs ++ [f]) :: rest
    else (k, fs) :: groupInsert folder f rest

/-- The `files_by_folder` dict: files grouped by `os.path.dirname` of their
relative path, in insertion order. -/
def filesByFolder (files : List SourceFile) : List (String × List SourceFile) :=
  files.foldl (fun acc f => groupInsert (pyDirname f.relPath) f acc) []

/-- The display name `check.replace('_', ' ').title()`. -/
def displayNameOf (check : String) : String :=
  pyTitle ⟨check.data.map (fun c => if c == '_' then ' ' else c)⟩

/-- The filter `[i for i in self.issues if check in i.lower()]`. -/
def relevantIssues (check : String) (issues : List String) : List String :=
  issues.filter (fun i => strContains (pyLower i) check)

/-- The `self.mandate_checks` dict as an ordered key/value list (Python dicts
iterate in insertion order; the keys are fixed in `__init__`). -/
def mandateEntries (m : MandateChecks) : List (String × String) :=
  [("integer_cents", m.integer_cents), ("sync_integrity", m.sync_integrity),
   ("soft_deletes", m.soft_deletes), ("auth_abstraction", m.auth_abstraction)]

/-- The lines of section 3 (one subsection per mandate check). -/
def mandateSection (m : MandateChecks) (issues : List String) : List String :=
  (mandateEntries m).flatMap (fun kv =>
    ["### 3.x " ++ displayNameOf kv.1, "**Status: " ++ kv.2 ++ "**"] ++
    (if kv.2 == "FAIL" then (relevantIssues kv.1 issues).map (fun r => "- " ++ r)
     else []) ++
    [""])

/-- The `out` list built by `generate_markdown`, in exact append order.
`today` stands for `datetime.date.today().isoformat()`, the one environmental
input of the renderer. -/
def generateMarkdownLines (files : List SourceFile) (featureName today : String) :
    List String :=
  let r := runChecks files featureName
  ["# Composable Manifest: features/" ++ featureName,
   "",
   "> **Generated**: " ++ today,
   "> **Auditor**: Automated Construction Agent",
   "> **Scope**: `/features/" ++ featureName ++ "/` folder",
   "",
   "---",
   "",
   "## Executive Summary",
   "",
   "| Category | Status | Notes |",
   "|----------|--------|-------|",
   "| Variable & Entity Registry | " ++ r.stats.naming ++ " | " ++
     (if r.stats.naming == "FAIL" then "Issues found" else "Clean") ++ " |",
   "| Dependency Manifest | " ++ r.stats.dependency_manifest ++ " | " ++
     toString r.stats.feature_bleed.length ++ " violations |",
   "| Sacred Mandate | " ++ r.stats.sacred_mandate ++ " | Auth: " ++
     r.mandate.auth_abstraction ++ " |",
   "| Performance | " ++ r.stats.performance ++ " | Watch Usage: " ++
     r.perf.react_compiler ++ " |",
   ""] ++
  (if !r.issues.isEmpty then
    "**Issues Found:**" :: r.issues.map (fun issue => "- " ++ issue)
   else ["**Overall Result: PASSED**"]) ++
  ["", "---", "",
   "## 1. Variable & Entity Registry", "",
   "### 1.1 Feature File Inventory",
   "**Total Files**: " ++ toString files.length,
   ""] ++
  (filesByFolder files).flatMap (fun kv =>
    ("#### " ++ kv.1) :: "| File | Lines |" :: "|------|-------|" ::
    kv.2.map (fun f => "| `" ++ f.name ++ "` | " ++ toString (fileLines f).length ++ " |") ++
    [""]) ++
  ["### 1.2 Entity Inventory",
   "| Name | Kind | File |",
   "|------|------|------|"] ++
  r.entities.map (fun e => "| `" ++ e.name ++ "` | " ++ e.kind ++ " | `" ++ e.file ++ "` |") ++
  ["",
   "## 2. Dependency Manifest", "",
   "### 2.1 Feature Bleed Check"] ++
  (if !r.stats.feature_bleed.isEmpty then
    "**Result: FAIL**" :: "" :: r.stats.feature_bleed.map (fun v => "- " ++ v)
   else ["**Result: PASS**", "No prohibited cross-feature imports detected."]) ++
  ["",
   "### 2.2 Transformer Usage"] ++
  (if !r.transformers.isEmpty then
    "| File | Usage |" :: "|------|-------|" :: r.transformers.map (fun t => "| " ++ t ++ " |")
   else ["No explicit transformer imports found."]) ++
  ["",
   "## 3. Sacred Mandate Compliance", ""] ++
  mandateSection r.mandate r.issues ++
  ["## 4. Performance & Scalability", "",
   "### 4.1 React Compiler Check",
   "**Status: " ++ r.perf.react_compiler ++ "**"] ++
  (if r.perf.react_compiler == "FAIL" then
    (relevantIssues "watch" r.issues).map (fun rel => "- " ++ rel)
   else [])

/-- The joined `"\n".join(out)`: the full Markdown report text. -/
def generateMarkdown (files : List SourceFile) (featureName today : String) : String :=
  String.intercalate "\n" (generateMarkdownLines files featureName today)

/-! ### The entry point (`scan_files` and `__main__`) -/

/-- An entry yielded by the directory walk: relative path, bare name, and the
result of reading it (`none` models a file whose `open()` raises). -/
structure RawFile where
  relPath : String
  name : String
  content : Option String
deriving Repr, DecidableEq

/-- The state of the feature directory as the walk sees it. -/
inductive DirState
  | missing
  | unreadable
  | present (entries : List RawFile)
deriving Repr, DecidableEq

/-- Python `os.walk` with its default `onerror=None` silently yields no entries when
the root is missing or cannot be read; otherwise it yields the directory's
files in traversal order. -/
def osWalk : DirState → List RawFile
  | .missing => []
  | .unreadable => []
  | .present entries => entries

/-- The test `file.endswith((".ts", ".tsx"))`. -/
def extMatch (name : String) : Bool :=
  strEndsWith name ".ts" || strEndsWith name ".tsx"

/-- A file-system error aborting the run. -/
inductive FsError
  | unreadableFile (path : String)
deriving Repr, DecidableEq

/-- The method `scan_files`: keep the walk entries with a matching extension, reading
each one; the first unreadable matching file raises and aborts. -/
def scanFiles : List RawFile → Except FsError (List SourceFile)
  | [] => .ok []
  | rf :: rest =>
    if extMatch rf.name then
      match rf.content with
      | none => .error (.unreadableFile rf.relPath)
      | some c =>
        match scanFiles rest with
        | .ok fs => .ok (⟨rf.relPath, rf.name, c⟩ :: fs)
        | .error e => .error e
    else scanFiles rest

/-- The `__main__` run for a present feature name: scan, then generate the
report.  An `.ok` result is the report text written to the docs path; an
`.error` aborts with nothing written. -/
def runMain (d : DirState) (featureName today : String) : Except FsError String :=
  match scanFiles (osWalk d) with
  | .ok files => .ok (generateMarkdown files featureName today)
  | .error e => .error e

/-! ### Readings of the specification's wording, for comparison with the code

These two definitions follow the words of the specification, not the source;
they exist only to be compared against the behaviour embedded above. -/

/-- Spec wording: "the path segment immediately after `features/`" of an
imported module path that starts with `@/features/` or `../../features/` —
the text after that prefix up to the next `/`. -/
def specSegmentAfterFeatures (p : String) : String :=
  if strStartsWith p "@/features/" then
    ⟨(p.data.drop 11).takeWhile (fun c => c != '/')⟩
  else if strStartsWith p "../../features/" then
    ⟨(p.data.drop 15).takeWhile (fun c => c != '/')⟩
  else ""

/-- Spec wording: a single file line "matching a lower-snake-case identifier
… followed by an optional `?` and a colon".  A line (which contains no line
break) matches when the deterministic snake matcher succeeds somewhere on it
anchored at its start; this is the one-line reading of the pattern, read
generously (digits allowed in the identifier tail, whitespace allowed around
it). -/
def specLineMatchesSnake (line : String) : Bool :=
  (matchSnakeAt line.data).isSome

/-! ### Concrete inputs used by the closed theorems -/

/-- A non-auth feature file calling the auth client directly. -/
def authExampleFile : SourceFile :=
  ⟨"features/transactions/ui/login.ts", "login.ts", "supabase.auth.signIn()"⟩

/-- A file using `watch(` from react-hook-form without `useWatch`. -/
def watchExampleFile : SourceFile :=
  ⟨"features/transactions/ui/form.ts", "form.ts",
   "import rhf from \"react-hook-form\"\nwatch(field)"⟩

/-- A repository file that mentions delete and contains the soft-delete
marker `deleted_at` — compliant with the soft-delete mandate. -/
def softDeleteOkFile : SourceFile :=
  ⟨"features/transactions/data/tx.repository.ts", "tx.repository.ts",
   "deleteTx marks deleted_at"⟩

/-- A financial file (mentions `balance`) with no numeric-type or float
mention. -/
def financialOnlyFile : SourceFile :=
  ⟨"features/accounts/model/account.ts", "account.ts", "balanceCents value"⟩

/-- A non-financial file that mentions both the generic numeric type and a
float spelling. -/
def numberFloatFile : SourceFile :=
  ⟨"features/accounts/ui/chart.ts", "chart.ts", "const x: number = parseFloat(y)"⟩

/-- A feature named `features` importing from `@/features/features/…`: the
path segment after the prefix equals the feature name, yet the code's
`split("features/")[1]` yields the empty string. -/
def doubleFeaturesFile : SourceFile :=
  ⟨"features/features/ui/a.ts", "a.ts",
   "import X from \"@/features/features/y\""⟩

/-- A feature named `myfeatures` importing its own module
`@/features/myfeatures/util`: the path segment after the prefix equals the
feature name, yet `split("features/")` also splits at the occurrence inside
`myfeatures/`, so the code extracts `my`. -/
def myFeaturesFile : SourceFile :=
  ⟨"features/myfeatures/ui/b.ts", "b.ts",
   "import Y from \"@/features/myfeatures/util\""⟩

/-- A domain file whose snake identifier sits at the end of one line with the
colon opening the next line: no single line matches the pattern, but the
multiline scan does. -/
def crossLineSnakeFile : SourceFile :=
  ⟨"features/transactions/domain/model.ts", "model.ts", "a_b\n:"⟩

/-- A domain file declaring the field `user_id: string` on its own line. -/
def userIdFile : SourceFile :=
  ⟨"features/transactions/domain/entities.ts", "entities.ts",
   "export interface Transaction\n  user_id: string\nend"⟩

/-- A walk entry with no source extension. -/
def nonSourceRaw : RawFile :=
  ⟨"features/empty/readme.md", "readme.md", some "notes"⟩

/-- A walk entry with a source extension whose read fails. -/
def unreadableRaw : RawFile :=
  ⟨"features/broken/a.ts", "a.ts", none⟩

/-! ## General lemmas about the collectors -/

theorem collect_eq_flatMap (g : α → List String) (l : List α) :
    collect g l = l.flatMap g := by
  induction l with
  | nil => rfl
  | cons a rest ih => simp [collect, ih]

theorem collect_eq_nil_iff (g : α → List String) (l : List α) :
    collect g l = [] ↔ ∀ a ∈ l, g a = [] := by
  induction l with
  | nil => simp [collect]
  | cons a rest ih => simp [collect, ih]

theorem collect_if_eq_filter_map (p : α → Bool) (m : α → String) (l : List α) :
    collect (fun a => if p a then [m a] else []) l = (l.filter p).map m := by
  induction l with
  | nil => rfl
  | cons a rest ih =>
    by_cases h : p a <;> simp [collect, List.filter_cons, h, ih]

theorem collect_if_eq_nil_iff (p : α → Bool) (m : α → String) (l : List α) :
    collect (fun a => if p a then [m a] else []) l = [] ↔ ∀ a ∈ l, p a = false := by
  rw [collect_eq_nil_iff]
  constructor
  · intro h a ha
    have := h a ha
    by_cases hp : p a
    · simp [hp] at this
    · simpa using hp
  · intro h a ha
    simp [h a ha]

theorem collectIdx_eq_enumFrom (g : Nat → α → List String) (i : Nat) (l : List α) :
    collectIdx g i l = (List.enumFrom i l).flatMap (fun pr => g pr.1 pr.2) := by
  induction l generalizing i with
  | nil => rfl
  | cons a rest ih => simp [collectIdx, List.enumFrom, ih]

theorem collectIdx_eq_nil_iff (g : Nat → α → List String) (q : α → Bool)
    (hg : ∀ i a, g i a = [] ↔ q a = false) (i : Nat) (l : List α) :
    collectIdx g i l = [] ↔ ∀ a ∈ l, q a = false := by
  induction l generalizing i with
  | nil => simp [collectIdx]
  | cons a rest ih => simp [collectIdx, hg, ih]

/-- The common `if vs.isEmpty then a else b` verdict shape. -/
theorem ite_empty_eq_snd_iff (vs : List String) (a b : String) (hab : a ≠ b) :
    (if vs.isEmpty then a else b) = b ↔ vs ≠ [] := by
  cases vs with
  | nil => simp [hab]
  | cons x xs => simp

theorem ite_empty_eq_fst_iff (vs : List String) (a b : String) (hab : a ≠ b) :
    (if vs.isEmpty then a else b) = a ↔ vs = [] := by
  cases vs with
  | nil => simp
  | cons x xs =>
    simp only [List.isEmpty_cons, Bool.false_eq_true, if_false]
    constructor
    · intro h; exact absurd h.symm hab
    · intro h; exact absurd h (by simp)

/-! ## Claim C3: the soft-delete sub-check -/

/-- The verdict collapses to `N/A`/`WARNING`: the `PASS` branch is guarded by
`has_delete`, which the loop sets only when it also appends a violation. -/
theorem softDeletesVerdict_eq (files : List SourceFile) :
    softDeletesVerdict files =
      if (deleteViolationsOf files).isEmpty then "N/A" else "WARNING" := by
  unfold softDeletesVerdict hasDeleteOf
  cases deleteViolationsOf files <;> simp

/-- C3 (amended): the soft-delete verdict is WARNING exactly when some file
mentioning `delete` with `repository` in its path lacks both soft-delete
markers, and N/A otherwise — also when compliant delete-mentioning repository
files exist; PASS and FAIL are never produced.  One violation is recorded per
violating file, in file order. -/
theorem c3_soft_delete_check (files : List SourceFile) :
    (softDeletesVerdict files = "WARNING" ↔ ∃ f ∈ files, softDeleteViolating f = true)
    ∧ (softDeletesVerdict files = "N/A" ↔ ¬ ∃ f ∈ files, softDeleteViolating f = true)
    ∧ softDeletesVerdict files ≠ "PASS"
    ∧ softDeletesVerdict files ≠ "FAIL"
    ∧ deleteViolationsOf files =
        (files.filter softDeleteViolating).map
          (fun f => "Potential hard delete verification needed in " ++ f.relPath) := by
  have hnil : deleteViolationsOf files = [] ↔ ∀ f ∈ files, softDeleteViolating f = false :=
    collect_if_eq_nil_iff _ _ _
  have hex : deleteViolationsOf files ≠ [] ↔ ∃ f ∈ files, softDeleteViolating f = true := by
    rw [ne_eq, hnil]
    push_neg
    simp
  refine ⟨?_, ?_, ?_, ?_, collect_if_eq_filter_map _ _ _⟩
  · rw [softDeletesVerdict_eq, ite_empty_eq_snd_iff _ _ _ (by decide), hex]
  · rw [softDeletesVerdict_eq, ite_empty_eq_fst_iff _ _ _ (by decide), hnil]
    push_neg
    simp
  · rw [softDeletesVerdict_eq]
    split <;> decide
  · rw [softDeletesVerdict_eq]
    split <;> decide

/-- C3 counterexample: a repository file that mentions `delete` and contains
the marker `deleted_at` leaves the verdict at N/A, where the claim demands
PASS. -/
theorem c3_soft_delete_counterexample :
    softDeletesVerdict [softDeleteOkFile] = "N/A"
    ∧ strContains (pyLower softDeleteOkFile.content) "delete" = true
    ∧ strContains softDeleteOkFile.relPath "repository" = true
    ∧ strContains softDeleteOkFile.content "deleted_at" = true := by
  refine ⟨by decide, by decide, by decide, by decide⟩

/-! ## Claim C4: the integer-cents sub-check -/

/-- C4 (amended): N/A exactly when no file mentions a financial term; FAIL
exactly when some file simultaneously mentions a financial term, references
`number`, and mentions `float`/`double`; PASS otherwise.  A file that
references `number` and `float` but carries no financial term itself is never
flagged, because the source evaluates the float heuristic only inside the
financial-term branch. -/
theorem c4_integer_cents_check (files : List SourceFile) :
    (integerCentsVerdict files = "N/A" ↔ ¬ ∃ f ∈ files, isFinancial f = true)
    ∧ (integerCentsVerdict files = "FAIL" ↔
        ∃ f ∈ files, isFinancial f = true ∧ floatFlag f = true)
    ∧ (integerCentsVerdict files = "PASS" ↔
        (∃ f ∈ files, isFinancial f = true) ∧
        ¬ ∃ f ∈ files, isFinancial f = true ∧ floatFlag f = true)
    ∧ floatViolationsOf files =
        (files.filter (fun f => isFinancial f && floatFlag f)).map
          (fun f => "Potential float usage in " ++ f.relPath) := by
  have hfin : hasFinancialOf files = true ↔ ∃ f ∈ files, isFinancial f = true := by
    simp [hasFinancialOf, List.any_eq_true]
  have hnil : floatViolationsOf files = [] ↔
      ∀ f ∈ files, (isFinancial f && floatFlag f) = false :=
    collect_if_eq_nil_iff _ _ _
  have hex : floatViolationsOf files ≠ [] ↔
      ∃ f ∈ files, isFinancial f = true ∧ floatFlag f = true := by
    rw [ne_eq, hnil]
    push_neg
    simp
  refine ⟨?_, ?_, ?_, collect_if_eq_filter_map _ _ _⟩
  · unfold integerCentsVerdict
    by_cases h : hasFinancialOf files
    · rw [if_pos h]
      constructor
      · intro hcontra
        exact absurd hcontra (by split <;> decide)
      · intro hno
        exact absurd (hfin.mp h) hno
    · rw [if_neg h]
      simp only [true_iff]
      intro hcontra
      exact h (hfin.mpr hcontra)
  · unfold integerCentsVerdict
    by_cases h : hasFinancialOf files
    · rw [if_pos h, ite_empty_eq_snd_iff _ _ _ (by decide), hex]
    · rw [if_neg h]
      constructor
      · intro hcontra; exact absurd hcontra (by decide)
      · intro ⟨f, hf, hfin', _⟩
        exact absurd (hfin.mpr ⟨f, hf, hfin'⟩) h
  · unfold integerCentsVerdict
    by_cases h : hasFinancialOf files
    · rw [if_pos h, ite_empty_eq_fst_iff _ _ _ (by decide)]
      rw [ne_eq] at hex
      constructor
      · intro hnil'
        exact ⟨hfin.mp h, fun hcontra => (hex.mpr hcontra) hnil'⟩
      · intro ⟨_, hno⟩
        by_cases hv : floatViolationsOf files = []
        · exact hv
        · exact absurd (hex.mp hv) hno
    · rw [if_neg h]
      constructor
      · intro hcontra; exact absurd hcontra (by decide)
      · intro ⟨hsome, _⟩
        exact absurd (hfin.mpr hsome) h

/-- C4 counterexample: with a financial-only file and a separate
`number`+`float` file carrying no financial term, the verdict is PASS, where
the claim ("even when that flagged file itself contains no financial term")
demands FAIL. -/
theorem c4_integer_cents_counterexample :
    integerCentsVerdict [financialOnlyFile, numberFloatFile] = "PASS"
    ∧ isFinancial financialOnlyFile = true
    ∧ isFinancial numberFloatFile = false
    ∧ strContains numberFloatFile.content "number" = true
    ∧ strContains (pyLower numberFloatFile.content) "float" = true := by
  refine ⟨by decide, by decide, by decide, by decide, by decide⟩

/-! ## Claim C5: the auth-abstraction sub-check -/

/-- C5: the auth-abstraction verdict is always PASS or FAIL (never N/A); it
is FAIL exactly when the audited feature is not named `auth` and some file
contains the literal `supabase.auth.`; and one violation is recorded per such
file, in file order. -/
theorem c5_auth_abstraction_check (files : List SourceFile) (featureName : String) :
    (authAbstractionVerdict files featureName = "PASS" ∨
     authAbstractionVerdict files featureName = "FAIL")
    ∧ (authAbstractionVerdict files featureName = "FAIL" ↔
        featureName ≠ "auth" ∧ ∃ f ∈ files, strContains f.content "supabase.auth." = true)
    ∧ (authAbstractionVerdict files featureName = "PASS" ↔
        ¬ (featureName ≠ "auth" ∧ ∃ f ∈ files, strContains f.content "supabase.auth." = true))
    ∧ authViolationsOf featureName files =
        (files.filter (authViolating featureName)).map
          (fun f => "Direct supabase.auth usage in " ++ f.relPath) := by
  have hnil : authViolationsOf featureName files = [] ↔
      ∀ f ∈ files, authViolating featureName f = false :=
    collect_if_eq_nil_iff _ _ _
  have hsplit : ∀ f : SourceFile, authViolating featureName f = true ↔
      strContains f.content "supabase.auth." = true ∧ featureName ≠ "auth" := by
    intro f
    simp [authViolating, Bool.and_eq_true, bne_iff_ne]
  have hex : authViolationsOf featureName files ≠ [] ↔
      featureName ≠ "auth" ∧ ∃ f ∈ files, strContains f.content "supabase.auth." = true := by
    rw [ne_eq, hnil]
    push_neg
    constructor
    · intro ⟨f, hf, hv⟩
      have := (hsplit f).mp (by simpa using hv)
      exact ⟨this.2, f, hf, this.1⟩
    · intro ⟨hname, f, hf, hc⟩
      exact ⟨f, hf, by simp [(hsplit f).mpr ⟨hc, hname⟩]⟩
  refine ⟨?_, ?_, ?_, collect_if_eq_filter_map _ _ _⟩
  · unfold authAbstractionVerdict
    split
    · exact Or.inl rfl
    · exact Or.inr rfl
  · unfold authAbstractionVerdict
    rw [ite_empty_eq_snd_iff _ _ _ (by decide), hex]
  · unfold authAbstractionVerdict
    rw [ite_empty_eq_fst_iff _ _ _ (by decide), ← hex]
    constructor
    · intro h hne
      exact hne h
    · intro h
      by_cases hv : authViolationsOf featureName files = []
      · exact hv
      · exact absurd hv h

/-! ## Claim C6: the dependency / feature-bleed check -/

/-- One line contributes exactly one finding when it qualifies, none
otherwise. -/
theorem bleedOfLine_eq (featureName rel : String) (i : Nat) (line : String) :
    bleedOfLine featureName rel i line =
      if qualifiesBleed featureName line then [bleedMsg (lineTarget line) rel i]
      else [] := by
  unfold bleedOfLine qualifiesBleed lineTarget
  cases importPath line with
  | none => rfl
  | some p =>
    by_cases h1 : isBleedPath p
    · by_cases h2 : (bleedTarget p != featureName && bleedTarget p != "shared") = true
      · simp [h1, h2, Bool.and_assoc]
      · simp only [Bool.not_eq_true] at h2
        simp [h1, h2, Bool.and_assoc]
    · simp only [Bool.not_eq_true] at h1
      simp [h1]

theorem flatMap_if_eq_filterMap (p : β → Bool) (m : β → String) (l : List β) :
    l.flatMap (fun b => if p b then [m b] else []) =
      l.filterMap (fun b => if p b then some (m b) else none) := by
  induction l with
  | nil => rfl
  | cons b rest ih =>
    by_cases h : p b <;> simp [h, ih, List.filterMap_cons]

/-- C6 (amended): findings are exactly one per qualifying line, carrying the
file's relative path and the 1-based line number (`pr.1 + 1` inside
`bleedMsg`), in file order then line order; the dependency-manifest verdict is
FAIL exactly when a qualifying line exists, else PASS.  A line qualifies when
its stripped form starts with `import `, its quoted `from`-path starts with
`@/features/` or `../../features/`, and the identifier the code extracts —
the text between the first two occurrences of the substring `features/`
anywhere in the path (to the end when it occurs only once), truncated at its
first `/` — differs from the feature name and from `shared`.  That extracted
identifier can differ from the path segment immediately after the prefix,
because `split` also cuts at an occurrence of `features/` embedded inside the
segment (see `c6_feature_bleed_counterexample` for `@/features/features/y`
and `@/features/myfeatures/util`). -/
theorem c6_feature_bleed_check (files : List SourceFile) (featureName : String) :
    featureBleedOf featureName files =
      files.flatMap (fun f =>
        (List.enumFrom 0 (fileLines f)).filterMap (fun pr =>
          if qualifiesBleed featureName pr.2 then
            some (bleedMsg (lineTarget pr.2) f.relPath pr.1)
          else none))
    ∧ (dependencyManifestStat files featureName = "FAIL" ↔
        ∃ f ∈ files, ∃ line ∈ fileLines f, qualifiesBleed featureName line = true)
    ∧ (dependencyManifestStat files featureName = "PASS" ↔
        ¬ ∃ f ∈ files, ∃ line ∈ fileLines f, qualifiesBleed featureName line = true) := by
  have hg : ∀ (rel : String) (i : Nat) (line : String),
      bleedOfLine featureName rel i line = [] ↔
        qualifiesBleed featureName line = false := by
    intro rel i line
    rw [bleedOfLine_eq]
    by_cases h : qualifiesBleed featureName line <;> simp [h]
  have hnil : featureBleedOf featureName files = [] ↔
      ∀ f ∈ files, ∀ line ∈ fileLines f, qualifiesBleed featureName line = false := by
    unfold featureBleedOf
    rw [collect_eq_nil_iff]
    constructor
    · intro h f hf line hline
      exact (collectIdx_eq_nil_iff _ _ (hg f.relPath) 0 (fileLines f)).mp (h f hf) line hline
    · intro h f hf
      exact (collectIdx_eq_nil_iff _ _ (hg f.relPath) 0 (fileLines f)).mpr (h f hf)
  have hex : featureBleedOf featureName files ≠ [] ↔
      ∃ f ∈ files, ∃ line ∈ fileLines f, qualifiesBleed featureName line = true := by
    rw [ne_eq, hnil]
    push_neg
    simp
  refine ⟨?_, ?_, ?_⟩
  · unfold featureBleedOf
    rw [collect_eq_flatMap]
    congr 1
    funext f
    rw [collectIdx_eq_enumFrom]
    calc (List.enumFrom 0 (fileLines f)).flatMap
          (fun pr => bleedOfLine featureName f.relPath pr.1 pr.2)
        = (List.enumFrom 0 (fileLines f)).flatMap
            (fun pr => if qualifiesBleed featureName pr.2 then
              [bleedMsg (lineTarget pr.2) f.relPath pr.1] else []) := by
          congr 1
          funext pr
          exact bleedOfLine_eq featureName f.relPath pr.1 pr.2
      _ = (List.enumFrom 0 (fileLines f)).filterMap
            (fun pr => if qualifiesBleed featureName pr.2 then
              some (bleedMsg (lineTarget pr.2) f.relPath pr.1) else none) :=
          flatMap_if_eq_filterMap
            (fun pr : Nat × String => qualifiesBleed featureName pr.2)
            (fun pr : Nat × String => bleedMsg (lineTarget pr.2) f.relPath pr.1) _
  · unfold dependencyManifestStat
    rw [ite_empty_eq_snd_iff _ _ _ (by decide), hex]
  · unfold dependencyManifestStat
    rw [ite_empty_eq_fst_iff _ _ _ (by decide), hnil]
    push_neg
    simp

/-- C6 counterexample: twice, the code's extracted identifier is not the path
segment immediately after `features/`.  For a feature named `features` and
the import path `@/features/features/y`, the segment is `features` — equal to
the feature name, so the claim requires no finding and a PASS verdict — yet
the code extracts the empty string, records one finding, and the verdict is
FAIL.  Likewise for a feature named `myfeatures` importing its own module
`@/features/myfeatures/util`: the segment equals the feature name, but
`split("features/")` also cuts at the occurrence embedded in `myfeatures/`,
the code extracts `my`, records a finding, and the verdict is FAIL. -/
theorem c6_feature_bleed_counterexample :
    dependencyManifestStat [doubleFeaturesFile] "features" = "FAIL"
    ∧ featureBleedOf "features" [doubleFeaturesFile] =
        ["Import from  in features/features/ui/a.ts:1"]
    ∧ fileLines doubleFeaturesFile = ["import X from \"@/features/features/y\""]
    ∧ importPath "import X from \"@/features/features/y\"" =
        some "@/features/features/y"
    ∧ specSegmentAfterFeatures "@/features/features/y" = "features"
    ∧ bleedTarget "@/features/features/y" = ""
    ∧ dependencyManifestStat [myFeaturesFile] "myfeatures" = "FAIL"
    ∧ featureBleedOf "myfeatures" [myFeaturesFile] =
        ["Import from my in features/myfeatures/ui/b.ts:1"]
    ∧ fileLines myFeaturesFile = ["import Y from \"@/features/myfeatures/util\""]
    ∧ importPath "import Y from \"@/features/myfeatures/util\"" =
        some "@/features/myfeatures/util"
    ∧ specSegmentAfterFeatures "@/features/myfeatures/util" = "myfeatures"
    ∧ bleedTarget "@/features/myfeatures/util" = "my"
    ∧ pySplitOn "@/features/myfeatures/util" "features/" = ["@/", "my", "util"] := by
  refine ⟨by decide, by decide, by decide, by decide, by decide, by decide, by decide,
    by decide, by decide, by decide, by decide, by decide, by decide⟩

/-! ## Claim C7: the snake-case naming check -/

/-- C7 (amended): the naming verdict is FAIL exactly when the multiline
snake-property scan finds a match in some file whose relative path contains
`domain`, else PASS; each match contributes exactly one violation with the
message `Snake_case property '<name>' in domain file <path>`, in file order
then scan order; and a domain file declaring `user_id: string` on its own
line yields a FAIL verdict with the corresponding finding. -/
theorem c7_naming_check (files : List SourceFile) :
    (namingStat files = "FAIL" ↔
      ∃ f ∈ files, isDomainFile f = true ∧ findSnake f.content ≠ [])
    ∧ (namingStat files = "PASS" ↔
        ¬ ∃ f ∈ files, isDomainFile f = true ∧ findSnake f.content ≠ [])
    ∧ namingViolations files =
        files.flatMap (fun f =>
          if isDomainFile f then
            (findSnake f.content).map (fun prop => snakeViolationMsg prop f.relPath)
          else [])
    ∧ namingStat [userIdFile] = "FAIL"
    ∧ namingViolations [userIdFile] =
        ["Snake_case property 'user_id' in domain file features/transactions/domain/entities.ts"] := by
  have hfile : ∀ f : SourceFile, snakeViolationsOfFile f = [] ↔
      ¬(isDomainFile f = true ∧ findSnake f.content ≠ []) := by
    intro f
    unfold snakeViolationsOfFile
    by_cases h : isDomainFile f <;> simp [h]
  have hnil : namingViolations files = [] ↔
      ∀ f ∈ files, ¬(isDomainFile f = true ∧ findSnake f.content ≠ []) := by
    unfold namingViolations
    rw [collect_eq_nil_iff]
    exact ⟨fun h f hf => (hfile f).mp (h f hf), fun h f hf => (hfile f).mpr (h f hf)⟩
  have hex : namingViolations files ≠ [] ↔
      ∃ f ∈ files, isDomainFile f = true ∧ findSnake f.content ≠ [] := by
    rw [ne_eq, hnil]
    push_neg
    simp
  refine ⟨?_, ?_, ?_, by decide, by decide⟩
  · unfold namingStat
    rw [ite_empty_eq_snd_iff _ _ _ (by decide), hex]
  · unfold namingStat
    rw [ite_empty_eq_fst_iff _ _ _ (by decide), hnil]
    push_neg
    simp
  · unfold namingViolations
    rw [collect_eq_flatMap]
    rfl

/-- C7 counterexample: the regex whitespace `\s*` spans line breaks, so a
domain file whose content is `a_b` on one line and `:` on the next produces a
violation and a FAIL verdict even though no single line of the file matches
the per-line pattern — where the claim requires PASS. -/
theorem c7_naming_counterexample :
    namingStat [crossLineSnakeFile] = "FAIL"
    ∧ namingViolations [crossLineSnakeFile] =
        ["Snake_case property 'a_b' in domain file features/transactions/domain/model.ts"]
    ∧ pyLines crossLineSnakeFile.content = ["a_b", ":"]
    ∧ (pyLines crossLineSnakeFile.content).all
        (fun line => !specLineMatchesSnake line) = true := by
  refine ⟨by decide, by decide, by decide, by decide⟩

/-! ## Claim C1: category verdicts versus findings -/

/-- C1 (amended): the naming and dependency-manifest category verdicts track
their findings (FAIL exactly when a finding exists, else PASS), but the
sacred-mandate and performance category verdicts in `self.stats` are never
assigned after initialisation and remain PASS on every input — even when the
auth-abstraction or watch sub-check records findings; only the sub-check
verdicts inside the mandate and performance maps become FAIL. -/
theorem c1_category_verdicts (files : List SourceFile) (featureName : String) :
    ((runChecks files featureName).stats.naming = "FAIL" ↔ namingViolations files ≠ [])
    ∧ ((runChecks files featureName).stats.naming = "PASS" ↔ namingViolations files = [])
    ∧ ((runChecks files featureName).stats.dependency_manifest = "FAIL" ↔
        featureBleedOf featureName files ≠ [])
    ∧ ((runChecks files featureName).stats.dependency_manifest = "PASS" ↔
        featureBleedOf featureName files = [])
    ∧ (runChecks files featureName).stats.sacred_mandate = "PASS"
    ∧ (runChecks files featureName).stats.performance = "PASS"
    ∧ ((runChecks files featureName).mandate.auth_abstraction = "FAIL" ↔
        authViolationsOf featureName files ≠ [])
    ∧ ((runChecks files featureName).perf.react_compiler = "FAIL" ↔
        watchViolationsOf files ≠ []) := by
  refine ⟨?_, ?_, ?_, ?_, rfl, rfl, ?_, ?_⟩
  · show namingStat files = "FAIL" ↔ _
    unfold namingStat
    exact ite_empty_eq_snd_iff _ _ _ (by decide)
  · show namingStat files = "PASS" ↔ _
    unfold namingStat
    exact ite_empty_eq_fst_iff _ _ _ (by decide)
  · show dependencyManifestStat files featureName = "FAIL" ↔ _
    unfold dependencyManifestStat
    exact ite_empty_eq_snd_iff _ _ _ (by decide)
  · show dependencyManifestStat files featureName = "PASS" ↔ _
    unfold dependencyManifestStat
    exact ite_empty_eq_fst_iff _ _ _ (by decide)
  · show authAbstractionVerdict files featureName = "FAIL" ↔ _
    unfold authAbstractionVerdict
    exact ite_empty_eq_snd_iff _ _ _ (by decide)
  · show reactCompilerVerdict files = "FAIL" ↔ _
    unfold reactCompilerVerdict
    exact ite_empty_eq_snd_iff _ _ _ (by decide)

/-- C1 counterexample: a run whose auth-abstraction and watch sub-checks both
record findings (so the flat findings list is non-empty and both sub-check
verdicts are FAIL), while the sacred-mandate and performance CATEGORY
verdicts remain PASS — the claim requires them to be FAIL. -/
theorem c1_category_counterexample :
    (runChecks [authExampleFile, watchExampleFile] "transactions").issues =
      ["Direct supabase.auth usage in features/transactions/ui/login.ts",
       "Usage of watch() instead of useWatch in features/transactions/ui/form.ts"]
    ∧ (runChecks [authExampleFile, watchExampleFile] "transactions").mandate.auth_abstraction = "FAIL"
    ∧ (runChecks [authExampleFile, watchExampleFile] "transactions").perf.react_compiler = "FAIL"
    ∧ (runChecks [authExampleFile, watchExampleFile] "transactions").stats.sacred_mandate = "PASS"
    ∧ (runChecks [authExampleFile, watchExampleFile] "transactions").stats.performance = "PASS" := by
  refine ⟨by decide, by decide, by decide, by decide, by decide⟩

/-! ## Claim C2: missing feature directory -/

/-- C2 (amended): a missing (or unreadable) feature directory does not abort
the run — `os.walk` silently yields nothing, the audit treats the feature as
empty, and a complete report is produced and written; only a read failure on
an individual matched file aborts the run with no report. -/
theorem c2_missing_directory_behaviour (featureName today : String) :
    runMain DirState.missing featureName today =
      Except.ok (generateMarkdown [] featureName today)
    ∧ runMain DirState.unreadable featureName today =
        Except.ok (generateMarkdown [] featureName today)
    ∧ runMain (DirState.present [unreadableRaw]) featureName today =
        Except.error (FsError.unreadableFile "features/broken/a.ts") :=
  ⟨rfl, rfl, rfl⟩

set_option maxRecDepth 16384

/-- C2 counterexample: with the feature directory missing, the run completes
and a non-empty report is written — the claim requires a fatal error with no
report. -/
theorem c2_missing_directory_counterexample :
    runMain DirState.missing "transactions" "2026-10-12" =
      Except.ok (generateMarkdown [] "transactions" "2026-10-12")
    ∧ (generateMarkdown [] "transactions" "2026-10-12").length ≠ 0 :=
  ⟨rfl, by decide⟩

/-! ## Claim C8: empty feature directory -/

/-- Walk entries without a source extension are dropped without being read. -/
theorem scanFiles_all_nonmatching (raws : List RawFile)
    (h : raws.all (fun rf => !extMatch rf.name) = true) :
    scanFiles raws = Except.ok [] := by
  induction raws with
  | nil => rfl
  | cons rf rest ih =>
    simp only [List.all_cons, Bool.and_eq_true, Bool.not_eq_true'] at h
    unfold scanFiles
    rw [if_neg (by simp [h.1])]
    exact ih (by simpa using h.2)

/-- C8: for a feature directory with no `.ts`/`.tsx` files, the scan yields an
empty inventory, the run succeeds with the empty-feature report, the findings
list is empty, and every category and sub-check verdict is PASS or N/A. -/
theorem c8_empty_feature (raws : List RawFile) (featureName today : String)
    (h : raws.all (fun rf => !extMatch rf.name) = true) :
    scanFiles raws = Except.ok []
    ∧ runMain (DirState.present raws) featureName today =
        Except.ok (generateMarkdown [] featureName today)
    ∧ (runChecks [] featureName).entities = []
    ∧ (runChecks [] featureName).issues = []
    ∧ (runChecks [] featureName).stats.naming = "PASS"
    ∧ (runChecks [] featureName).stats.dependency_manifest = "PASS"
    ∧ (runChecks [] featureName).stats.sacred_mandate = "PASS"
    ∧ (runChecks [] featureName).stats.performance = "PASS"
    ∧ (runChecks [] featureName).stats.entity_registry = "PASS"
    ∧ (runChecks [] featureName).stats.feature_bleed = []
    ∧ (runChecks [] featureName).mandate.integer_cents = "N/A"
    ∧ (runChecks [] featureName).mandate.sync_integrity = "N/A"
    ∧ (runChecks [] featureName).mandate.soft_deletes = "N/A"
    ∧ (runChecks [] featureName).mandate.auth_abstraction = "PASS"
    ∧ (runChecks [] featureName).perf.react_compiler = "PASS"
    ∧ (runChecks [] featureName).perf.re_render = "PASS" := by
  refine ⟨scanFiles_all_nonmatching raws h, ?_, rfl, rfl, rfl, rfl, rfl, rfl, rfl,
    rfl, rfl, rfl, rfl, rfl, rfl, rfl⟩
  unfold runMain osWalk
  rw [scanFiles_all_nonmatching raws h]

/-- Witness for C8 at a concrete non-source walk entry. -/
theorem c8_empty_feature_witness :
    ([nonSourceRaw].all (fun rf => !extMatch rf.name) = true)
    ∧ scanFiles [nonSourceRaw] = Except.ok []
    ∧ (runChecks [] "transactions").issues = []
    ∧ (runChecks [] "transactions").mandate.soft_deletes = "N/A" :=
  ⟨by decide,
   (c8_empty_feature [nonSourceRaw] "transactions" "2026-10-12" (by decide)).1,
   (c8_empty_feature [nonSourceRaw] "transactions" "2026-10-12" (by decide)).2.2.2.1,
   (c8_empty_feature [nonSourceRaw] "transactions" "2026-10-12" (by decide)).2.2.2.2.2.2.2.2.2.2.2.2.1⟩

/-! ## Claim C9: determinism of the report -/

/-- C9 (amended): apart from the `> **Generated**:` line (index 2 of the
output), the rendered report is a deterministic function of the feature name
and the scanned file list; the date parameter appears in that line and
nowhere else. -/
theorem c9_determinism_modulo_date (files : List SourceFile)
    (featureName d1 d2 : String) :
    (generateMarkdownLines files featureName d1).eraseIdx 2 =
      (generateMarkdownLines files featureName d2).eraseIdx 2
    ∧ (generateMarkdownLines files featureName d1)[2]? =
        some ("> **Generated**: " ++ d1) := by
  constructor
  · unfold generateMarkdownLines
    dsimp only
    simp only [List.cons_append, List.eraseIdx_cons_succ, List.eraseIdx_cons_zero]
  · unfold generateMarkdownLines
    dsimp only
    rfl

/-- C9 counterexample: the report embeds `datetime.date.today()`, so two runs
of the auditor on identical input at different dates produce different bytes
— the claim asserts byte-identical output for every pair of runs on unchanged
input. -/
theorem c9_idempotence_counterexample :
    generateMarkdown [] "transactions" "2026-10-12" ≠
      generateMarkdown [] "transactions" "2026-10-13" := by
  decide

/-! ## Claim C10: the sync-integrity placeholder -/

theorem isInfix_append_right {l m : List α} (n : List α) (h : l <:+: m) :
    l <:+: n ++ m := by
  obtain ⟨s, t, hst⟩ := h
  exact ⟨n ++ s, t, by rw [← hst]; simp [List.append_assoc]⟩

theorem isInfix_append_left {l m : List α} (h : l <:+: m) (n : List α) :
    l <:+: m ++ n := by
  obtain ⟨s, t, hst⟩ := h
  exact ⟨s, t ++ n, by rw [← hst]; simp [List.append_assoc]⟩

/-- The sync-integrity subsection rendered by section 3 when the verdict is
`N/A` (its `FAIL`-only issue listing is skipped). -/
theorem mandateSection_sync_subsection (m : MandateChecks) (issues : List String)
    (h : m.sync_integrity = "N/A") :
    ["### 3.x Sync Integrity", "**Status: N/A**", ""] <:+: mandateSection m issues := by
  unfold mandateSection mandateEntries
  simp only [List.flatMap_cons, List.flatMap_nil, List.append_nil]
  rw [h]
  exact isInfix_append_right _ (isInfix_append_left (List.infix_refl _) _)

/-- C10: `mandate_checks["sync_integrity"]` is initialised to `N/A` and no
check ever writes it, so after every run it is `N/A` and the rendered
sacred-mandate section contains a `Sync Integrity` subsection with status
`N/A`. -/
theorem c10_sync_integrity_check (files : List SourceFile) (featureName today : String) :
    (runChecks files featureName).mandate.sync_integrity = "N/A"
    ∧ ["### 3.x Sync Integrity", "**Status: N/A**", ""] <:+:
        generateMarkdownLines files featureName today := by
  refine ⟨rfl, ?_⟩
  refine (mandateSection_sync_subsection (runChecks files featureName).mandate
    (runChecks files featureName).issues rfl).trans ?_
  unfold generateMarkdownLines
  dsimp only
  exact isInfix_append_left (isInfix_append_left
    (isInfix_append_right _ (List.infix_refl _)) _) _

end Audit
